import Mathlib

/-!
Verification of the multi-level lattice environment
`EnvironmentNAVXYTHETAMLEVLAT` (environment_navxythetamlevlat.cpp).

The C++ class layers `numofadditionalzlevs` additional occupancy grids on
top of a base single-level lattice environment.  We embed the class state
as a structure and each member function as a Lean function on that state.

Modelling conventions:
* machine bytes / ints become `Nat` / `Int` (cost values are bytes, 0..255;
  no arithmetic in the modelled code overflows these claims);
* each per-level grid is a total function `Int → Int → Nat`; the C++ only
  ever reads or writes in-range cells in the situations the claims cover,
  so the values of the function outside the allocated rectangle are never
  relevant;
* raw-pointer structures that may be `NULL` become `Option`;
* operations whose C++ execution would index past an allocated array
  (undefined behavior) return `none`;
* the base single-level environment (`EnvironmentNAVXYTHETALAT`) is not
  part of the repository sources; its members used here are modelled from
  the spec (see the doc comments marked accordingly).
-/

namespace NavMLev

/-- sbpl's infinite-cost sentinel (`INFINITECOST`). -/
def INFINITECOST : Nat := 1000000000

/-- A per-level 2D cost grid: cell costs are bytes; modelled as a total
function on integer cell coordinates (only in-range cells are ever read
or written by the modelled code paths). -/
abbrev Grid := Int → Int → Nat

/-- A footprint polygon vertex (`sbpl_2Dpt_t`).  In the source the
coordinates are continuous (doubles); no claim computes with them — only
storage and the vertex count are used — so the coordinate type is
immaterial and fixed to pairs of integers. -/
abbrev sbpl_2Dpt_t := Int × Int

/-- A motion primitive (`EnvNAVXYTHETALATAction_t`), read-only input from
the base environment.  `interm3DcellsV` keeps only the (x, y) of each
intermediate discretized center cell (the heading component is unused by
the modelled code). -/
structure EnvNAVXYTHETALATAction_t where
  aind : Nat
  starttheta : Nat
  endtheta : Nat
  dX : Int
  dY : Int
  cost : Nat
  interm3DcellsV : List (Int × Int)

/-- Per-(heading, action) additional-level info
(`EnvNAVXYTHETAMLEVLATAddInfoAction_t`); `intersectingcellsV` is indexed
by the additional-level index. -/
structure EnvNAVXYTHETAMLEVLATAddInfoAction_t where
  dX : Int
  dY : Int
  starttheta : Nat
  endtheta : Nat
  intersectingcellsV : List (List (Int × Int))

/-- The slice of the base environment's configuration
(`EnvNAVXYTHETALATCfg`) read by the multi-level code, together with the
base environment's own primitives consumed at the interface boundary.
`baseGetActionCost` is modelled from the spec: the base single-level
environment's `actionCost` is an external collaborator specified only at
its interface (spec §6), so it is an abstract function here. -/
structure EnvNAVXYTHETALATCfgT where
  EnvWidth_c : Int
  EnvHeight_c : Int
  obsthresh : Nat
  cost_inscribed_thresh : Nat
  cost_possibly_circumscribed_thresh : Nat
  Grid2D : Grid
  actionwidth : Nat
  ActionsV : Nat → Nat → EnvNAVXYTHETALATAction_t
  baseGetActionCost : Int → Int → Nat → EnvNAVXYTHETALATAction_t → Nat

/-- The mutable state of `EnvironmentNAVXYTHETAMLEVLAT`: the inherited
base configuration plus the additional-level members.  `none` models a
`NULL` member pointer (the constructor's state). -/
structure MLevState where
  cfg : EnvNAVXYTHETALATCfgT
  numofadditionalzlevs : Nat
  AddLevelGrid2D : Option (List Grid)
  AddLevelFootprintPolygonV : Option (List (List sbpl_2Dpt_t))
  AdditionalInfoinActionsV : Option (Nat → Nat → EnvNAVXYTHETAMLEVLATAddInfoAction_t)

/-- Modelled from the spec: `EnvironmentNAVXYTHETALAT::IsValidCell`, the
base environment's single-level validity check, is not under src/; per
spec §4.3 a base-level cell is free iff it is inside the grid bounds and
its base-grid cost is below `obsthresh`. -/
def baseIsValidCell (cfg : EnvNAVXYTHETALATCfgT) (X Y : Int) : Bool :=
  decide (0 ≤ X) && decide (X < cfg.EnvWidth_c) &&
  decide (0 ≤ Y) && decide (Y < cfg.EnvHeight_c) &&
  decide (cfg.Grid2D X Y < cfg.obsthresh)

/-- Read `AddLevelGrid2D[levelind][X][Y]`.  In every state the modelled
code reaches, `AddLevelGrid2D` is allocated with `numofadditionalzlevs`
grids and `levelind` is in range, so the defaults are never exercised. -/
def readLev (st : MLevState) (levelind : Nat) (X Y : Int) : Nat :=
  ((st.AddLevelGrid2D.getD []).getD levelind (fun _ _ => 0)) X Y

/-- `EnvironmentNAVXYTHETAMLEVLAT::IsValidCell(X, Y)`: valid at the base
level and below `obsthresh` at every additional level. -/
def IsValidCell (st : MLevState) (X Y : Int) : Bool :=
  baseIsValidCell st.cfg X Y &&
  (List.range st.numofadditionalzlevs).all
    (fun levelind => decide (readLev st levelind X Y < st.cfg.obsthresh))

/-- `EnvironmentNAVXYTHETAMLEVLAT::IsValidCell(X, Y, levind)`: the
per-level validity check; the level-index bound is one more conjunct of
the (short-circuiting) conjunction. -/
def IsValidCellLev (st : MLevState) (X Y : Int) (levind : Nat) : Bool :=
  decide (0 ≤ X) && decide (X < st.cfg.EnvWidth_c) &&
  decide (0 ≤ Y) && decide (Y < st.cfg.EnvHeight_c) &&
  decide (levind < st.numofadditionalzlevs) &&
  decide (readLev st levind X Y < st.cfg.obsthresh)

/-- `EnvironmentNAVXYTHETAMLEVLAT::GetMapCost(X, Y)`: running maximum of
the base-grid cost and every additional level's cost at the cell. -/
def GetMapCost (st : MLevState) (X Y : Int) : Nat :=
  (List.range st.numofadditionalzlevs).foldl
    (fun mapcost levind => max mapcost (readLev st levind X Y))
    (st.cfg.Grid2D X Y)

/-- `EnvironmentNAVXYTHETAMLEVLAT::GetMapCost(X, Y, levind)`: the raw
per-level cost read. -/
def GetMapCostLev (st : MLevState) (X Y : Int) (levind : Nat) : Nat :=
  readLev st levind X Y

/-- `EnvironmentNAVXYTHETAMLEVLAT::Set2DMapforAddLev`: bulk-overwrite of
one level's grid from a row-major byte array.  The C++ checks only that
`AddLevelGrid2D` is allocated; with an out-of-range `levind` it indexes
past the allocated level array — undefined behavior, modelled as
`none`. -/
def Set2DMapforAddLev (st : MLevState) (mapdata : Int → Nat) (levind : Nat) :
    Option (Bool × MLevState) :=
  match st.AddLevelGrid2D with
  | none => some (false, st)
  | some gs =>
    if levind < gs.length then
      some (true, { st with
        AddLevelGrid2D := some (gs.set levind (fun X Y =>
          if 0 ≤ X ∧ X < st.cfg.EnvWidth_c ∧ 0 ≤ Y ∧ Y < st.cfg.EnvHeight_c then
            mapdata (X + Y * st.cfg.EnvWidth_c)
          else
            gs.getD levind (fun _ _ => 0) X Y)) })
    else none

/-- `EnvironmentNAVXYTHETAMLEVLAT::UpdateCostinAddLev`: unchecked
single-cell write `AddLevelGrid2D[zlev][x][y] = newcost`; any access
outside the allocated storage is undefined behavior, modelled as
`none`. -/
def UpdateCostinAddLev (st : MLevState) (x y : Int) (newcost : Nat) (zlev : Nat) :
    Option (Bool × MLevState) :=
  match st.AddLevelGrid2D with
  | none => none
  | some gs =>
    if zlev < gs.length ∧ 0 ≤ x ∧ x < st.cfg.EnvWidth_c ∧
        0 ≤ y ∧ y < st.cfg.EnvHeight_c then
      some (true, { st with
        AddLevelGrid2D := some (gs.set zlev (fun X Y =>
          if X = x ∧ Y = y then newcost else gs.getD zlev (fun _ _ => 0) X Y)) })
    else none

/-- `EnvironmentNAVXYTHETAMLEVLAT::InitializeAdditionalLevels`.
Modelled from the spec: `CalculateFootprintForPose` and
`RemoveSourceFootprint` (the geometry primitives the precompute loop is
built from) belong to the base environment, which is not under src/;
per spec §4.2 their composite effect per (heading, action, level) is the
swept-cell offset list, abstracted here as the parameter `sweptCells`.
The C++ reads `perimeterptsV[levelind]` for every `levelind` below the
requested level count without knowing the supplied array's length;
a shorter array is indexed past its end — undefined behavior, `none`.
No double-initialization check exists: the member pointers are simply
overwritten and the function returns `true`. -/
def InitializeAdditionalLevels (st : MLevState) (numofadditionalzlevs_in : Nat)
    (perimeterptsV : List (List sbpl_2Dpt_t))
    (sweptCells : Nat → Nat → Nat → List (Int × Int)) :
    Option (Bool × MLevState) :=
  if perimeterptsV.length < numofadditionalzlevs_in then none
  else some (true, { st with
    numofadditionalzlevs := numofadditionalzlevs_in,
    AddLevelFootprintPolygonV := some (perimeterptsV.take numofadditionalzlevs_in),
    AdditionalInfoinActionsV := some (fun tind aind =>
      { dX := (st.cfg.ActionsV tind aind).dX,
        dY := (st.cfg.ActionsV tind aind).dY,
        starttheta := tind,
        endtheta := (st.cfg.ActionsV tind aind).endtheta,
        intersectingcellsV :=
          (List.range numofadditionalzlevs_in).map (sweptCells tind aind) }),
    AddLevelGrid2D :=
      some ((List.range numofadditionalzlevs_in).map (fun _ => fun _ _ => 0)) })

/-- Result of the broad-phase walk over an action's intermediate center
cells: the overall running maximum (`maxcellcost`), the per-level running
maxima (`maxcellcostateachlevel`), and whether the walk hit one of its
two `break` statements (`brokeEarly`). -/
structure BroadPhaseResult where
  maxcellcost : Nat
  maxcellcostateachlevel : Nat → Nat
  brokeEarly : Bool

/-- The per-cell inner loop of the broad phase: fold the cell's cost at
every additional level into the overall and per-level running maxima. -/
def cellLevelCostsFold (st : MLevState) (x y : Int) (acc : Nat × (Nat → Nat)) :
    Nat × (Nat → Nat) :=
  (List.range st.numofadditionalzlevs).foldl
    (fun acc levelind =>
      (max acc.1 (readLev st levelind x y),
       Function.update acc.2 levelind (max (acc.2 levelind) (readLev st levelind x y))))
    acc

/-- The bounds test applied to each translated intermediate center cell
(`interm3Dcell.x < 0 || interm3Dcell.x >= EnvWidth_c || ...`). -/
abbrev outOfMap (st : MLevState) (x y : Int) : Prop :=
  x < 0 ∨ st.cfg.EnvWidth_c ≤ x ∨ y < 0 ∨ st.cfg.EnvHeight_c ≤ y

/-- The broad-phase loop of `GetActionCostacrossAddLevels` (the walk over
`action->interm3DcellsV`): each center cell is translated by the source
cell; a cell outside the grid, or an overall running maximum at/above
`cost_inscribed_thresh`, clamps `maxcellcost` to `obsthresh` and breaks. -/
def broadLoop (st : MLevState) (SX SY : Int) :
    List (Int × Int) → Nat → (Nat → Nat) → BroadPhaseResult
  | [], m, ml => ⟨m, ml, false⟩
  | c :: rest, m, ml =>
    if outOfMap st (c.1 + SX) (c.2 + SY) then
      ⟨st.cfg.obsthresh, ml, true⟩
    else if st.cfg.cost_inscribed_thresh ≤
        (cellLevelCostsFold st (c.1 + SX) (c.2 + SY) (m, ml)).1 then
      ⟨st.cfg.obsthresh, (cellLevelCostsFold st (c.1 + SX) (c.2 + SY) (m, ml)).2, true⟩
    else
      broadLoop st SX SY rest (cellLevelCostsFold st (c.1 + SX) (c.2 + SY) (m, ml)).1
        (cellLevelCostsFold st (c.1 + SX) (c.2 + SY) (m, ml)).2

/-- The broad phase of `GetActionCostacrossAddLevels`, started from the
zero-initialized running maxima. -/
def broadPhase (st : MLevState) (SX SY : Int) (action : EnvNAVXYTHETALATAction_t) :
    BroadPhaseResult :=
  broadLoop st SX SY action.interm3DcellsV 0 (fun _ => 0)

/-- `AddLevelFootprintPolygonV[levelind].size()`. -/
def footprintSize (st : MLevState) (levelind : Nat) : Nat :=
  ((st.AddLevelFootprintPolygonV.getD []).getD levelind []).length

/-- `AdditionalInfoinActionsV[tind][aind].intersectingcellsV[levelind]`:
the precomputed swept-cell offsets for one (heading, action, level). -/
def intersectingCells (st : MLevState) (tind aind levelind : Nat) :
    List (Int × Int) :=
  ((st.AdditionalInfoinActionsV.getD (fun _ _ => ⟨0, 0, 0, 0, []⟩)) tind aind).intersectingcellsV.getD levelind []

/-- The narrow-phase loop of `GetActionCostacrossAddLevels`: for each
remaining level (while `maxcellcost < obsthresh`), if the level's
footprint has more than one vertex and the level's broad-phase maximum is
at/above `cost_possibly_circumscribed_thresh`, check every translated
precomputed swept cell with the per-level `IsValidCell`; the first
invalid cell clamps `maxcellcost` to `obsthresh`. -/
def narrowLoop (st : MLevState) (SX SY : Int) (action : EnvNAVXYTHETALATAction_t)
    (ml : Nat → Nat) : List Nat → Nat → Nat
  | [], m => m
  | levelind :: rest, m =>
    if st.cfg.obsthresh ≤ m then m
    else
      narrowLoop st SX SY action ml rest
        (if 1 < footprintSize st levelind ∧
            st.cfg.cost_possibly_circumscribed_thresh ≤ ml levelind then
          if (intersectingCells st action.starttheta action.aind levelind).any
              (fun c => ! IsValidCellLev st (c.1 + SX) (c.2 + SY) levelind) then
            st.cfg.obsthresh
          else m
        else m)

/-- The first per-level loop of `GetActionCostacrossAddLevels`: does some
additional level put the destination cell at/above
`cost_inscribed_thresh`. -/
def destAboveInscribed (st : MLevState) (X Y : Int) : Bool :=
  (List.range st.numofadditionalzlevs).any
    (fun levelind => decide (st.cfg.cost_inscribed_thresh ≤ readLev st levelind X Y))

/-- `EnvironmentNAVXYTHETAMLEVLAT::GetActionCostacrossAddLevels`. -/
def GetActionCostacrossAddLevels (st : MLevState) (SourceX SourceY : Int)
    (SourceTheta : Nat) (action : EnvNAVXYTHETALATAction_t) : Nat :=
  if ! IsValidCell st SourceX SourceY then INFINITECOST
  else if ! IsValidCell st (SourceX + action.dX) (SourceY + action.dY) then
    INFINITECOST
  else if st.numofadditionalzlevs = 0 then 0
  else if destAboveInscribed st (SourceX + action.dX) (SourceY + action.dY) then
    INFINITECOST
  else
    let b := broadPhase st SourceX SourceY action
    let m := narrowLoop st SourceX SourceY action b.maxcellcostateachlevel
      (List.range st.numofadditionalzlevs) b.maxcellcost
    if st.cfg.obsthresh ≤ m then INFINITECOST else action.cost * (m + 1)

/-- `EnvironmentNAVXYTHETAMLEVLAT::GetActionCost`: the maximum of the
base environment's action cost and the additional-level action cost. -/
def GetActionCost (st : MLevState) (SourceX SourceY : Int) (SourceTheta : Nat)
    (action : EnvNAVXYTHETALATAction_t) : Nat :=
  max (st.cfg.baseGetActionCost SourceX SourceY SourceTheta action)
      (GetActionCostacrossAddLevels st SourceX SourceY SourceTheta action)

/-- The final value of the `maxcellcost` variable of
`GetActionCostacrossAddLevels` (broad phase then narrow phase); with zero
additional levels neither loop observes any cost, so it is 0. -/
def mlevMaxObservedCost (st : MLevState) (SX SY : Int)
    (action : EnvNAVXYTHETALATAction_t) : Nat :=
  if st.numofadditionalzlevs = 0 then 0
  else
    narrowLoop st SX SY action (broadPhase st SX SY action).maxcellcostateachlevel
      (List.range st.numofadditionalzlevs) (broadPhase st SX SY action).maxcellcost

/-- The largest additional-level cost at one (absolute) cell: the maximum
over all configured levels, 0 when there are none.  This is what one step
of the broad phase folds into the overall running maximum. -/
def cellMax (st : MLevState) (x y : Int) : Nat :=
  (List.range st.numofadditionalzlevs).foldl
    (fun m l => max m (readLev st l x y)) 0

/-- The additional-level cost maximum observed over a prefix of the
action's translated intermediate center cells. -/
def observedRunMax (st : MLevState) (SX SY : Int) (cells : List (Int × Int)) : Nat :=
  cells.foldl (fun m c => max m (cellMax st (c.1 + SX) (c.2 + SY))) 0

/-! ### Concrete environments used by witnesses and counterexamples -/

/-- A 10×10 base configuration: free base grid, `obsthresh` 250,
`cost_inscribed_thresh` 200, `cost_possibly_circumscribed_thresh` 100;
the (abstract) base action cost is the action's nominal cost. -/
def exCfg : EnvNAVXYTHETALATCfgT :=
  { EnvWidth_c := 10, EnvHeight_c := 10, obsthresh := 250,
    cost_inscribed_thresh := 200, cost_possibly_circumscribed_thresh := 100,
    Grid2D := fun _ _ => 0, actionwidth := 1,
    ActionsV := fun _ _ => ⟨0, 0, 0, 1, 0, 5, [(0, 0), (1, 0)]⟩,
    baseGetActionCost := fun _ _ _ a => a.cost }

/-- A one-cell-east action of base cost 5 with two intermediate center
cells. -/
def exAction : EnvNAVXYTHETALATAction_t := ⟨0, 0, 0, 1, 0, 5, [(0, 0), (1, 0)]⟩

/-- One additional level whose grid carries cost 3 at cell (3, 2) (a
cell of the action's swept center line from source (2, 2)). -/
def scaleGrid : Grid := fun x y => if x = 3 ∧ y = 2 then 3 else 0

/-- A one-level environment over `exCfg` with `scaleGrid`, a two-vertex
footprint, and an empty precomputed swept-cell list. -/
def scaleSt : MLevState :=
  { cfg := exCfg, numofadditionalzlevs := 1,
    AddLevelGrid2D := some [scaleGrid],
    AddLevelFootprintPolygonV := some [[(0, 0), (1, 0)]],
    AdditionalInfoinActionsV := some (fun _ _ => ⟨1, 0, 0, 0, [[]]⟩) }

/-- A level grid with cost 150 on the center line (enough to trigger the
narrow phase, not enough to block) and a hard obstacle (255) at (5, 5),
reachable only through the precomputed swept cells. -/
def blockGrid : Grid :=
  fun x y => if x = 3 ∧ y = 2 then 150 else if x = 5 ∧ y = 5 then 255 else 0

/-- `scaleSt` with `blockGrid` and a precomputed swept-cell offset (3, 3)
(absolute cell (5, 5) from source (2, 2)). -/
def blockSt : MLevState :=
  { scaleSt with
    AddLevelGrid2D := some [blockGrid],
    AdditionalInfoinActionsV := some (fun _ _ => ⟨1, 0, 0, 0, [[(3, 3)]]⟩) }

/-- A configuration whose `cost_inscribed_thresh` (5) is strictly below
`obsthresh` (10). -/
def c3Cfg : EnvNAVXYTHETALATCfgT :=
  { exCfg with
    obsthresh := 10,
    cost_inscribed_thresh := 5,
    cost_possibly_circumscribed_thresh := 3 }

/-- A level grid carrying cost 5 (= `c3Cfg.cost_inscribed_thresh`, below
`obsthresh`) at center-line cell (3, 2). -/
def c3Grid : Grid := fun x y => if x = 3 ∧ y = 2 then 5 else 0

/-- A one-level environment over `c3Cfg`. -/
def c3St : MLevState :=
  { cfg := c3Cfg, numofadditionalzlevs := 1,
    AddLevelGrid2D := some [c3Grid],
    AddLevelFootprintPolygonV := some [[(0, 0), (1, 0)]],
    AdditionalInfoinActionsV := some (fun _ _ => ⟨1, 0, 0, 0, [[]]⟩) }

/-- A two-level environment with base cost 5 everywhere and level costs 3
and 7 (the spec's pointwise-max example). -/
def c4St : MLevState :=
  { cfg := { exCfg with Grid2D := fun _ _ => 5 }, numofadditionalzlevs := 2,
    AddLevelGrid2D := some [fun _ _ => 3, fun _ _ => 7],
    AddLevelFootprintPolygonV := some [[], []],
    AdditionalInfoinActionsV := none }

/-- A base configuration whose abstract base action cost returns the
nominal cost on valid source/destination cells and `INFINITECOST`
otherwise (the base environment's contract, modelled from the spec). -/
def zeroCfg : EnvNAVXYTHETALATCfgT :=
  { exCfg with baseGetActionCost := fun X Y _ a =>
      if 0 ≤ X ∧ X < 10 ∧ 0 ≤ Y ∧ Y < 10 ∧ 0 ≤ X + a.dX ∧ X + a.dX < 10 ∧
          0 ≤ Y + a.dY ∧ Y + a.dY < 10 then a.cost else INFINITECOST }

/-- A zero-additional-levels environment over `zeroCfg`. -/
def zeroSt : MLevState :=
  { cfg := zeroCfg, numofadditionalzlevs := 0,
    AddLevelGrid2D := some [], AddLevelFootprintPolygonV := some [],
    AdditionalInfoinActionsV := none }

/-- A 3×2 two-level environment for the load/update round trip. -/
def c7St : MLevState :=
  { cfg := { exCfg with EnvWidth_c := 3, EnvHeight_c := 2 },
    numofadditionalzlevs := 2,
    AddLevelGrid2D := some [fun _ _ => 0, fun _ _ => 9],
    AddLevelFootprintPolygonV := some [[], []],
    AdditionalInfoinActionsV := none }

/-- A row-major cost array for `c7St`: cell (x, y) receives 10 + x + 3·y. -/
def c7Map : Int → Nat := fun i => 10 + i.toNat

/-- `c7St` after bulk-loading level 0 with `c7Map`. -/
def c7Loaded : MLevState := ((Set2DMapforAddLev c7St c7Map 0).getD (false, c7St)).2

/-- `c7St` after updating cell (1, 0) of level 1 to cost 42. -/
def c7Updated : MLevState := ((UpdateCostinAddLev c7St 1 0 42 1).getD (false, c7St)).2

/-- The freshly constructed environment: all additional-level members are
`NULL` (the constructor state). -/
def freshSt : MLevState :=
  { cfg := exCfg, numofadditionalzlevs := 0,
    AddLevelGrid2D := none, AddLevelFootprintPolygonV := none,
    AdditionalInfoinActionsV := none }

/-- A one-entry footprint list for initialization. -/
def c8Foot : List (List sbpl_2Dpt_t) := [[(0, 0), (1, 0), (0, 1)]]

/-- A trivial abstract swept-cell computation. -/
def c8Swept : Nat → Nat → Nat → List (Int × Int) := fun _ _ _ => []

/-- The state obtained from the first initialization of `freshSt`. -/
def c8St1 : MLevState :=
  ((InitializeAdditionalLevels freshSt 1 c8Foot c8Swept).getD (false, freshSt)).2

/-- A constant row-major cost array. -/
def c9Map : Int → Nat := fun _ => 7

/-! ### Generic lemmas about running-maximum folds -/

theorem foldl_max_le_init {α : Type} (f : α → Nat) :
    ∀ (xs : List α) (a : Nat), a ≤ xs.foldl (fun m x => max m (f x)) a := by
  intro xs
  induction xs with
  | nil => intro a; exact Nat.le_refl a
  | cons x xs ih =>
    intro a
    exact Nat.le_trans (Nat.le_max_left a (f x)) (ih (max a (f x)))

theorem foldl_max_le_mem {α : Type} (f : α → Nat) :
    ∀ (xs : List α) (a : Nat) (x : α), x ∈ xs →
      f x ≤ xs.foldl (fun m z => max m (f z)) a := by
  intro xs
  induction xs with
  | nil => intro a x hx; exact absurd hx (List.not_mem_nil x)
  | cons y ys ih =>
    intro a x hx
    rcases List.mem_cons.mp hx with h | h
    · subst h
      exact Nat.le_trans (Nat.le_max_right a (f x)) (foldl_max_le_init f ys (max a (f x)))
    · exact ih (max a (f y)) x h

theorem foldl_max_eq_or {α : Type} (f : α → Nat) :
    ∀ (xs : List α) (a : Nat),
      xs.foldl (fun m x => max m (f x)) a = a ∨
        ∃ x, x ∈ xs ∧ xs.foldl (fun m x => max m (f x)) a = f x := by
  intro xs
  induction xs with
  | nil => intro a; exact Or.inl rfl
  | cons y ys ih =>
    intro a
    rcases ih (max a (f y)) with h | ⟨x, hx, h⟩
    · rcases max_choice a (f y) with hm | hm
      · exact Or.inl (h.trans hm)
      · exact Or.inr ⟨y, List.mem_cons_self y ys, h.trans hm⟩
    · exact Or.inr ⟨x, List.mem_cons_of_mem y hx, h⟩

theorem foldl_max_shift {α : Type} (f : α → Nat) :
    ∀ (xs : List α) (a : Nat),
      xs.foldl (fun m x => max m (f x)) a =
        max a (xs.foldl (fun m x => max m (f x)) 0) := by
  intro xs
  induction xs with
  | nil => intro a; exact (Nat.max_zero a).symm
  | cons y ys ih =>
    intro a
    rw [List.foldl_cons, List.foldl_cons, ih (max a (f y)), ih (max 0 (f y)),
      Nat.zero_max, ← Nat.max_assoc]

theorem foldl_pair_fst {α : Type} (f : α → Nat) (g : (Nat → Nat) → α → (Nat → Nat)) :
    ∀ (xs : List α) (m : Nat) (ml : Nat → Nat),
      (xs.foldl (fun acc x => (max acc.1 (f x), g acc.2 x)) (m, ml)).1 =
        xs.foldl (fun m x => max m (f x)) m := by
  intro xs
  induction xs with
  | nil => intro m ml; rfl
  | cons y ys ih => intro m ml; exact ih (max m (f y)) (g ml y)

/-! ### Basic characterizations of the validity and cost queries -/

theorem baseIsValidCell_iff (cfg : EnvNAVXYTHETALATCfgT) (X Y : Int) :
    baseIsValidCell cfg X Y = true ↔
      (0 ≤ X ∧ X < cfg.EnvWidth_c ∧ 0 ≤ Y ∧ Y < cfg.EnvHeight_c ∧
       cfg.Grid2D X Y < cfg.obsthresh) := by
  simp [baseIsValidCell, and_assoc]

theorem IsValidCell_iff (st : MLevState) (X Y : Int) :
    IsValidCell st X Y = true ↔
      (baseIsValidCell st.cfg X Y = true ∧
       ∀ l, l < st.numofadditionalzlevs → readLev st l X Y < st.cfg.obsthresh) := by
  simp [IsValidCell, List.all_eq_true, List.mem_range]

theorem cellLevelCostsFold_fst (st : MLevState) (x y : Int) (m : Nat) (ml : Nat → Nat) :
    (cellLevelCostsFold st x y (m, ml)).1 = max m (cellMax st x y) :=
  (foldl_pair_fst (fun l => readLev st l x y)
      (fun ml2 l => Function.update ml2 l (max (ml2 l) (readLev st l x y)))
      (List.range st.numofadditionalzlevs) m ml).trans
    (foldl_max_shift (fun l => readLev st l x y) (List.range st.numofadditionalzlevs) m)

theorem getD_set_self {α : Type} (l : List α) (n : Nat) (a d : α) (h : n < l.length) :
    (l.set n a).getD n d = a := by
  rw [List.getD_eq_getElem?_getD, List.getElem?_set_self', List.getElem?_eq_getElem h]
  rfl

theorem getD_set_ne {α : Type} (l : List α) (n k : Nat) (a d : α) (h : k ≠ n) :
    (l.set n a).getD k d = l.getD k d := by
  rw [List.getD_eq_getElem?_getD, List.getElem?_set_ne (by omega),
    List.getD_eq_getElem?_getD]

theorem readLev_set (st : MLevState) (gs : List Grid) (g : Grid) (z : Nat)
    (hlen : z < gs.length) (X Y : Int) :
    readLev { st with AddLevelGrid2D := some (gs.set z g) } z X Y = g X Y := by
  show ((gs.set z g).getD z (fun _ _ => 0)) X Y = g X Y
  rw [getD_set_self _ _ _ _ hlen]

theorem readLev_set_other (st : MLevState) (gs : List Grid) (g : Grid) (z l : Nat)
    (hne : l ≠ z) (X Y : Int) :
    readLev { st with AddLevelGrid2D := some (gs.set z g) } l X Y =
      (gs.getD l (fun _ _ => 0)) X Y := by
  show ((gs.set z g).getD l (fun _ _ => 0)) X Y = _
  rw [getD_set_ne _ _ _ _ _ hne]

theorem UpdateCostinAddLev_inv (st : MLevState) (x y : Int) (c : Nat) (z : Nat)
    (st2 : MLevState) (h : UpdateCostinAddLev st x y c z = some (true, st2)) :
    ∃ gs, st.AddLevelGrid2D = some gs ∧ z < gs.length ∧
      0 ≤ x ∧ x < st.cfg.EnvWidth_c ∧ 0 ≤ y ∧ y < st.cfg.EnvHeight_c ∧
      st2 = { st with AddLevelGrid2D := some (gs.set z (fun X Y =>
        if X = x ∧ Y = y then c else gs.getD z (fun _ _ => 0) X Y)) } := by
  cases hg : st.AddLevelGrid2D with
  | none => simp [UpdateCostinAddLev, hg] at h
  | some gs =>
    simp only [UpdateCostinAddLev, hg] at h
    split at h
    · next hcond =>
      refine ⟨gs, rfl, hcond.1, hcond.2.1, hcond.2.2.1, hcond.2.2.2.1, hcond.2.2.2.2, ?_⟩
      simp only [Option.some.injEq, Prod.mk.injEq] at h
      exact h.2.symm
    · exact absurd h (by simp)

theorem Set2DMapforAddLev_inv (st : MLevState) (mapdata : Int → Nat) (levind : Nat)
    (st2 : MLevState) (h : Set2DMapforAddLev st mapdata levind = some (true, st2)) :
    ∃ gs, st.AddLevelGrid2D = some gs ∧ levind < gs.length ∧
      st2 = { st with AddLevelGrid2D := some (gs.set levind (fun X Y =>
        if 0 ≤ X ∧ X < st.cfg.EnvWidth_c ∧ 0 ≤ Y ∧ Y < st.cfg.EnvHeight_c then
          mapdata (X + Y * st.cfg.EnvWidth_c)
        else gs.getD levind (fun _ _ => 0) X Y)) } := by
  cases hg : st.AddLevelGrid2D with
  | none => simp [Set2DMapforAddLev, hg] at h
  | some gs =>
    simp only [Set2DMapforAddLev, hg] at h
    split at h
    · next hcond =>
      refine ⟨gs, rfl, hcond, ?_⟩
      simp only [Option.some.injEq, Prod.mk.injEq] at h
      exact h.2.symm
    · exact absurd h (by simp)

/-- C4: `GetMapCost(x, y)` is the pointwise maximum of the base-grid cost
and every additional level's cost at (x, y) — an upper bound of all of
them that is attained by one of them, never an average or a sum; with
level costs [3, 7] and base cost 5 it returns 7. -/
theorem GetMapCost_pointwise_max :
    (∀ (st : MLevState) (X Y : Int),
      st.cfg.Grid2D X Y ≤ GetMapCost st X Y ∧
      (∀ l, l < st.numofadditionalzlevs → GetMapCostLev st X Y l ≤ GetMapCost st X Y) ∧
      (GetMapCost st X Y = st.cfg.Grid2D X Y ∨
        ∃ l, l < st.numofadditionalzlevs ∧ GetMapCost st X Y = GetMapCostLev st X Y l)) ∧
    GetMapCost c4St 0 0 = 7 := by
  constructor
  · intro st X Y
    refine ⟨?_, ?_, ?_⟩
    · exact foldl_max_le_init (fun l => readLev st l X Y)
        (List.range st.numofadditionalzlevs) (st.cfg.Grid2D X Y)
    · intro l hl
      exact foldl_max_le_mem (fun l => readLev st l X Y)
        (List.range st.numofadditionalzlevs) (st.cfg.Grid2D X Y) l
        (List.mem_range.mpr hl)
    · rcases foldl_max_eq_or (fun l => readLev st l X Y)
        (List.range st.numofadditionalzlevs) (st.cfg.Grid2D X Y) with h | ⟨l, hl, h⟩
      · exact Or.inl h
      · exact Or.inr ⟨l, List.mem_range.mp hl, h⟩
  · decide

/-- Witness for C4 at a concrete input: in `c4St` the level-1 cost at
(0, 0) is bounded by `GetMapCost`, which equals 7 there. -/
theorem GetMapCost_pointwise_max_witness :
    1 < c4St.numofadditionalzlevs ∧ GetMapCostLev c4St 0 0 1 ≤ GetMapCost c4St 0 0 :=
  ⟨by decide, (GetMapCost_pointwise_max.1 c4St 0 0).2.1 1 (by decide)⟩

/-- C5: `IsValidCell(x, y)` holds iff the base-level cell is free and
every additional level's cost there is strictly below `obsthresh`;
out-of-bounds cells are invalid; and raising any single level's cost at
the cell to at/above `obsthresh` (via `UpdateCostinAddLev`) makes the
cell invalid regardless of the other levels. -/
theorem IsValidCell_all_levels (st : MLevState) (X Y : Int) :
    (IsValidCell st X Y = true ↔
      (baseIsValidCell st.cfg X Y = true ∧
       ∀ l, l < st.numofadditionalzlevs → readLev st l X Y < st.cfg.obsthresh)) ∧
    (¬ (0 ≤ X ∧ X < st.cfg.EnvWidth_c ∧ 0 ≤ Y ∧ Y < st.cfg.EnvHeight_c) →
      IsValidCell st X Y = false) ∧
    (∀ (l c : Nat) (st2 : MLevState), l < st.numofadditionalzlevs →
      st.cfg.obsthresh ≤ c → UpdateCostinAddLev st X Y c l = some (true, st2) →
      IsValidCell st2 X Y = false) := by
  refine ⟨IsValidCell_iff st X Y, ?_, ?_⟩
  · intro hnb
    rw [Bool.eq_false_iff]
    intro h
    have hb := ((IsValidCell_iff st X Y).mp h).1
    rw [baseIsValidCell_iff] at hb
    exact hnb ⟨hb.1, hb.2.1, hb.2.2.1, hb.2.2.2.1⟩
  · intro l c st2 hl hc hupd
    rcases UpdateCostinAddLev_inv st X Y c l st2 hupd with
      ⟨gs, hg, hlen, _, _, _, _, hst2⟩
    subst hst2
    rw [Bool.eq_false_iff]
    intro h
    have hall := ((IsValidCell_iff _ X Y).mp h).2 l hl
    rw [readLev_set st gs _ l hlen X Y] at hall
    simp at hall
    omega

/-- Witness for C5 at a concrete input: cell (12, 2) is outside the 10×10
grid of `scaleSt`, so it is invalid. -/
theorem IsValidCell_all_levels_witness :
    (¬ (0 ≤ (12 : Int) ∧ (12 : Int) < scaleSt.cfg.EnvWidth_c ∧
        0 ≤ (2 : Int) ∧ (2 : Int) < scaleSt.cfg.EnvHeight_c)) ∧
    IsValidCell scaleSt 12 2 = false :=
  ⟨by decide, (IsValidCell_all_levels scaleSt 12 2).2.1 (by decide)⟩

/-- C10: the per-level query `IsValidCell(x, y, levind)` returns false
for every cell — whatever the grids hold — whenever `levind` is at/above
the configured number of additional levels: the level-index bound is one
conjunct of the validity conjunction. -/
theorem IsValidCellLev_over_range (st : MLevState) (X Y : Int) (levind : Nat)
    (h : st.numofadditionalzlevs ≤ levind) :
    IsValidCellLev st X Y levind = false := by
  unfold IsValidCellLev
  rw [decide_eq_false (by omega : ¬ levind < st.numofadditionalzlevs)]
  simp

/-- Witness for C10 at a concrete input: level 5 does not exist in the
one-level `scaleSt`, so the in-bounds, all-levels-free cell (1, 1) is
reported invalid at level 5. -/
theorem IsValidCellLev_over_range_witness :
    scaleSt.numofadditionalzlevs ≤ 5 ∧ IsValidCellLev scaleSt 1 1 5 = false :=
  ⟨by decide, IsValidCellLev_over_range scaleSt 1 1 5 (by decide)⟩

theorem readLev_eq (st : MLevState) (gs : List Grid)
    (hg : st.AddLevelGrid2D = some gs) (l : Nat) (X Y : Int) :
    readLev st l X Y = (gs.getD l (fun _ _ => 0)) X Y := by
  unfold readLev
  rw [hg]
  rfl

/-- C7: bulk-loading a level then reading it back returns exactly the
loaded row-major array at every in-range cell; a single-cell update then
a read returns exactly the new cost, and every other cell of every level
is unchanged. -/
theorem grid_roundtrip (st : MLevState) (mapdata : Int → Nat) (lev : Nat)
    (x y : Int) (c : Nat) (z : Nat) :
    (∀ st2, Set2DMapforAddLev st mapdata lev = some (true, st2) →
      ∀ X Y : Int, 0 ≤ X → X < st.cfg.EnvWidth_c → 0 ≤ Y → Y < st.cfg.EnvHeight_c →
        GetMapCostLev st2 X Y lev = mapdata (X + Y * st.cfg.EnvWidth_c)) ∧
    (∀ st2, UpdateCostinAddLev st x y c z = some (true, st2) →
      GetMapCostLev st2 x y z = c ∧
      (∀ (l : Nat) (X Y : Int), l ≠ z ∨ X ≠ x ∨ Y ≠ y →
        GetMapCostLev st2 X Y l = GetMapCostLev st X Y l)) := by
  constructor
  · intro st2 h X Y hx1 hx2 hy1 hy2
    rcases Set2DMapforAddLev_inv st mapdata lev st2 h with ⟨gs, hg, hlen, hst2⟩
    subst hst2
    show readLev _ lev X Y = _
    rw [readLev_set st gs _ lev hlen X Y]
    simp [hx1, hx2, hy1, hy2]
  · intro st2 h
    rcases UpdateCostinAddLev_inv st x y c z st2 h with
      ⟨gs, hg, hlen, _, _, _, _, hst2⟩
    subst hst2
    constructor
    · show readLev _ z x y = c
      rw [readLev_set st gs _ z hlen x y]
      simp
    · intro l X Y hor
      show readLev _ l X Y = readLev st l X Y
      by_cases hlz : l = z
      · subst hlz
        rw [readLev_set st gs _ l hlen X Y]
        have hcond : ¬ (X = x ∧ Y = y) := by
          rcases hor with h1 | h2 | h3
          · exact absurd rfl h1
          · exact fun hc => h2 hc.1
          · exact fun hc => h3 hc.2
        rw [if_neg hcond, readLev_eq st gs hg]
      · rw [readLev_set_other st gs _ z l hlz X Y, readLev_eq st gs hg]

/-- Witness for C7 at concrete inputs on the 3×2 `c7St`: the loaded value
reads back at (2, 1) of level 0; the updated value reads back at (1, 0)
of level 1; an untouched cell of level 1 is unchanged. -/
theorem grid_roundtrip_witness :
    Set2DMapforAddLev c7St c7Map 0 = some (true, c7Loaded) ∧
    GetMapCostLev c7Loaded 2 1 0 = c7Map (2 + 1 * c7St.cfg.EnvWidth_c) ∧
    UpdateCostinAddLev c7St 1 0 42 1 = some (true, c7Updated) ∧
    GetMapCostLev c7Updated 1 0 1 = 42 ∧
    GetMapCostLev c7Updated 2 1 1 = GetMapCostLev c7St 2 1 1 :=
  ⟨rfl,
   (grid_roundtrip c7St c7Map 0 1 0 42 1).1 c7Loaded rfl 2 1
     (by decide) (by decide) (by decide) (by decide),
   rfl,
   ((grid_roundtrip c7St c7Map 0 1 0 42 1).2 c7Updated rfl).1,
   ((grid_roundtrip c7St c7Map 0 1 0 42 1).2 c7Updated rfl).2 1 2 1
     (Or.inr (Or.inl (by decide)))⟩

/-- C9 (amended): `Set2DMapforAddLev` returns an explicit unsuccessful
result, with no grid mutated, exactly when the level store is
unallocated; it performs no range check on the level index, so an
out-of-range index runs into the unallocated part of the level array
(undefined behavior) rather than a clean failure; with an allocated
store and an in-range index it bulk-overwrites exactly that level's
in-range cells and leaves every other level unchanged. -/
theorem Set2DMapforAddLev_error_behavior (st : MLevState) (mapdata : Int → Nat)
    (levind : Nat) :
    (st.AddLevelGrid2D = none → Set2DMapforAddLev st mapdata levind = some (false, st)) ∧
    (∀ gs, st.AddLevelGrid2D = some gs → gs.length ≤ levind →
      Set2DMapforAddLev st mapdata levind = none) ∧
    (∀ gs, st.AddLevelGrid2D = some gs → levind < gs.length →
      ∃ st2, Set2DMapforAddLev st mapdata levind = some (true, st2) ∧
        (∀ X Y : Int, 0 ≤ X → X < st.cfg.EnvWidth_c → 0 ≤ Y → Y < st.cfg.EnvHeight_c →
          GetMapCostLev st2 X Y levind = mapdata (X + Y * st.cfg.EnvWidth_c)) ∧
        (∀ (l : Nat) (X Y : Int), l ≠ levind →
          GetMapCostLev st2 X Y l = GetMapCostLev st X Y l)) := by
  refine ⟨?_, ?_, ?_⟩
  · intro h
    simp [Set2DMapforAddLev, h]
  · intro gs hg hle
    simp only [Set2DMapforAddLev, hg]
    rw [if_neg (by omega)]
  · intro gs hg hlt
    refine ⟨{ st with AddLevelGrid2D := some (gs.set levind (fun X Y =>
        if 0 ≤ X ∧ X < st.cfg.EnvWidth_c ∧ 0 ≤ Y ∧ Y < st.cfg.EnvHeight_c then
          mapdata (X + Y * st.cfg.EnvWidth_c)
        else gs.getD levind (fun _ _ => 0) X Y)) }, ?_, ?_, ?_⟩
    · simp only [Set2DMapforAddLev, hg]
      rw [if_pos hlt]
    · intro X Y hx1 hx2 hy1 hy2
      show readLev _ levind X Y = _
      rw [readLev_set st gs _ levind hlt X Y]
      simp [hx1, hx2, hy1, hy2]
    · intro l X Y hne
      show readLev _ l X Y = readLev st l X Y
      rw [readLev_set_other st gs _ levind l hne X Y, readLev_eq st gs hg]

/-- C9 counterexample: `scaleSt` has an allocated one-level store, yet
`Set2DMapforAddLev` with the out-of-range level index 1 does not return
the claimed unsuccessful result — it indexes past the one-entry level
array (undefined behavior, `none` in the model). -/
theorem Set2DMapforAddLev_range_counterexample :
    scaleSt.AddLevelGrid2D.isSome = true ∧
    (scaleSt.AddLevelGrid2D.getD []).length = 1 ∧
    Set2DMapforAddLev scaleSt c9Map 1 = none :=
  ⟨rfl, rfl, rfl⟩

/-- Witness for C9 at a concrete input: on the unallocated `freshSt` the
load reports failure and returns the state unchanged. -/
theorem Set2DMapforAddLev_error_behavior_witness :
    freshSt.AddLevelGrid2D = none ∧
    Set2DMapforAddLev freshSt c9Map 0 = some (false, freshSt) :=
  ⟨rfl, (Set2DMapforAddLev_error_behavior freshSt c9Map 0).1 rfl⟩

/-- C8 (amended): `InitializeAdditionalLevels` records the level count,
stores the first `numLevels` footprint polygons, allocates `numLevels`
zero-filled grids, and reports success; it performs no misuse detection:
a second invocation without teardown succeeds again (abandoning the
previous allocation), and a footprint list shorter than `numLevels` is
indexed past its end (undefined behavior) instead of failing cleanly. -/
theorem InitializeAdditionalLevels_no_misuse_detection (st : MLevState) (n : Nat)
    (fps : List (List sbpl_2Dpt_t)) (sw : Nat → Nat → Nat → List (Int × Int))
    (h : n ≤ fps.length) :
    ∃ st2, InitializeAdditionalLevels st n fps sw = some (true, st2) ∧
      st2.numofadditionalzlevs = n ∧
      st2.AddLevelFootprintPolygonV = some (fps.take n) ∧
      (∃ gs, st2.AddLevelGrid2D = some gs ∧ gs.length = n ∧
        ∀ l, l < n → ∀ X Y : Int, GetMapCostLev st2 X Y l = 0) ∧
      (InitializeAdditionalLevels st2 n fps sw).map Prod.fst = some true := by
  have hnot : ¬ fps.length < n := by omega
  refine ⟨{ st with
      numofadditionalzlevs := n,
      AddLevelFootprintPolygonV := some (fps.take n),
      AdditionalInfoinActionsV := some (fun tind aind =>
        { dX := (st.cfg.ActionsV tind aind).dX,
          dY := (st.cfg.ActionsV tind aind).dY,
          starttheta := tind,
          endtheta := (st.cfg.ActionsV tind aind).endtheta,
          intersectingcellsV := (List.range n).map (sw tind aind) }),
      AddLevelGrid2D := some ((List.range n).map (fun _ => fun _ _ => 0)) },
    ?_, rfl, rfl,
    ⟨(List.range n).map (fun _ => fun _ _ => 0), rfl, by simp, ?_⟩, ?_⟩
  · simp only [InitializeAdditionalLevels]
    rw [if_neg hnot]
  · intro l hl X Y
    show (((List.range n).map (fun _ => (fun _ _ => 0 : Grid))).getD l
      (fun _ _ => 0)) X Y = 0
    rw [List.getD_eq_getElem?_getD, List.getElem?_eq_getElem (by simpa using hl)]
    simp
  · simp only [InitializeAdditionalLevels]
    rw [if_neg hnot]
    rfl

/-- C8 counterexample: a first initialization of the fresh environment
succeeds, and a second initialization of the resulting state — with no
teardown in between — succeeds again instead of failing. -/
theorem InitializeAdditionalLevels_double_counterexample :
    (InitializeAdditionalLevels freshSt 1 c8Foot c8Swept).map Prod.fst = some true ∧
    (InitializeAdditionalLevels c8St1 1 c8Foot c8Swept).map Prod.fst = some true :=
  ⟨rfl, rfl⟩

/-- Witness for C8 at a concrete input: one level initialized from
`freshSt` with a one-polygon footprint list. -/
theorem InitializeAdditionalLevels_no_misuse_detection_witness :
    1 ≤ c8Foot.length ∧
    (∃ st2, InitializeAdditionalLevels freshSt 1 c8Foot c8Swept = some (true, st2) ∧
      st2.numofadditionalzlevs = 1 ∧
      st2.AddLevelFootprintPolygonV = some (c8Foot.take 1) ∧
      (∃ gs, st2.AddLevelGrid2D = some gs ∧ gs.length = 1 ∧
        ∀ l, l < 1 → ∀ X Y : Int, GetMapCostLev st2 X Y l = 0) ∧
      (InitializeAdditionalLevels st2 1 c8Foot c8Swept).map Prod.fst = some true) :=
  ⟨by decide,
   InitializeAdditionalLevels_no_misuse_detection freshSt 1 c8Foot c8Swept (by decide)⟩

/-! ### Branch lemmas for the action-cost computation -/

theorem IsValidCell_zero_levels (st : MLevState) (h0 : st.numofadditionalzlevs = 0)
    (X Y : Int) : IsValidCell st X Y = baseIsValidCell st.cfg X Y := by
  simp [IsValidCell, h0]

theorem addLevels_invalid_source (st : MLevState) (SX SY : Int) (θ : Nat)
    (a : EnvNAVXYTHETALATAction_t) (h : IsValidCell st SX SY = false) :
    GetActionCostacrossAddLevels st SX SY θ a = INFINITECOST := by
  simp [GetActionCostacrossAddLevels, h]

theorem addLevels_invalid_dest (st : MLevState) (SX SY : Int) (θ : Nat)
    (a : EnvNAVXYTHETALATAction_t)
    (h : IsValidCell st (SX + a.dX) (SY + a.dY) = false) :
    GetActionCostacrossAddLevels st SX SY θ a = INFINITECOST := by
  simp [GetActionCostacrossAddLevels, h]

theorem addLevels_zero (st : MLevState) (SX SY : Int) (θ : Nat)
    (a : EnvNAVXYTHETALATAction_t) (h0 : st.numofadditionalzlevs = 0)
    (h1 : IsValidCell st SX SY = true)
    (h2 : IsValidCell st (SX + a.dX) (SY + a.dY) = true) :
    GetActionCostacrossAddLevels st SX SY θ a = 0 := by
  simp [GetActionCostacrossAddLevels, h1, h2, h0]

theorem addLevels_inscribed (st : MLevState) (SX SY : Int) (θ : Nat)
    (a : EnvNAVXYTHETALATAction_t)
    (h1 : IsValidCell st SX SY = true)
    (h2 : IsValidCell st (SX + a.dX) (SY + a.dY) = true)
    (hd : destAboveInscribed st (SX + a.dX) (SY + a.dY) = true) :
    GetActionCostacrossAddLevels st SX SY θ a = INFINITECOST := by
  have h0 : st.numofadditionalzlevs ≠ 0 := by
    intro h
    rw [destAboveInscribed, h] at hd
    simp at hd
  simp [GetActionCostacrossAddLevels, h1, h2, h0, hd]

theorem addLevels_main (st : MLevState) (SX SY : Int) (θ : Nat)
    (a : EnvNAVXYTHETALATAction_t)
    (h1 : IsValidCell st SX SY = true)
    (h2 : IsValidCell st (SX + a.dX) (SY + a.dY) = true)
    (h0 : st.numofadditionalzlevs ≠ 0)
    (hd : destAboveInscribed st (SX + a.dX) (SY + a.dY) = false) :
    GetActionCostacrossAddLevels st SX SY θ a =
      if st.cfg.obsthresh ≤ mlevMaxObservedCost st SX SY a then INFINITECOST
      else a.cost * (mlevMaxObservedCost st SX SY a + 1) := by
  simp [GetActionCostacrossAddLevels, h1, h2, h0, hd, mlevMaxObservedCost]

/-- C6: with zero additional levels the multi-level contribution is 0 on
every transition whose endpoints are valid (and infinite exactly when an
endpoint is base-invalid, where the base environment's own cost is
already infinite), so `GetActionCost` coincides with the base
environment's own action cost for every source pose and action. -/
theorem GetActionCost_zero_levels (st : MLevState) (SX SY : Int) (θ : Nat)
    (a : EnvNAVXYTHETALATAction_t)
    (h0 : st.numofadditionalzlevs = 0)
    (hbase : ¬ (baseIsValidCell st.cfg SX SY = true ∧
        baseIsValidCell st.cfg (SX + a.dX) (SY + a.dY) = true) →
      st.cfg.baseGetActionCost SX SY θ a = INFINITECOST) :
    (IsValidCell st SX SY = true → IsValidCell st (SX + a.dX) (SY + a.dY) = true →
      GetActionCostacrossAddLevels st SX SY θ a = 0) ∧
    GetActionCost st SX SY θ a = st.cfg.baseGetActionCost SX SY θ a := by
  constructor
  · exact fun h1 h2 => addLevels_zero st SX SY θ a h0 h1 h2
  · unfold GetActionCost
    by_cases h1 : IsValidCell st SX SY = true
    · by_cases h2 : IsValidCell st (SX + a.dX) (SY + a.dY) = true
      · rw [addLevels_zero st SX SY θ a h0 h1 h2]
        exact Nat.max_zero _
      · have hb := hbase (fun hc => h2 (by
          rw [IsValidCell_zero_levels st h0]
          exact hc.2))
        rw [addLevels_invalid_dest st SX SY θ a (Bool.eq_false_iff.mpr h2), hb]
        exact Nat.max_self _
    · have hb := hbase (fun hc => h1 (by
        rw [IsValidCell_zero_levels st h0]
        exact hc.1))
      rw [addLevels_invalid_source st SX SY θ a (Bool.eq_false_iff.mpr h1), hb]
      exact Nat.max_self _

/-- Witness for C6 at a concrete input: the zero-level `zeroSt` returns
exactly the base action cost for `exAction` from (2, 2). -/
theorem GetActionCost_zero_levels_witness :
    zeroSt.numofadditionalzlevs = 0 ∧
    GetActionCost zeroSt 2 2 0 exAction = zeroSt.cfg.baseGetActionCost 2 2 0 exAction :=
  ⟨rfl, (GetActionCost_zero_levels zeroSt 2 2 0 exAction rfl (by decide)).2⟩

/-- C1: on any transition the additional levels do not reject as blocked,
`GetActionCost` returns the maximum of the base environment's action cost
and the action's base cost multiplied by (maxObservedCost + 1); in
particular, when the base environment reports the nominal cost C and the
sweep observes no cost (maxObservedCost 0) the result is C, and when the
worst observed cost is k (k < obsthresh) the result is C·(k+1). -/
theorem GetActionCost_scaling_law (st : MLevState) (SX SY : Int) (θ : Nat)
    (a : EnvNAVXYTHETALATAction_t) (k : Nat)
    (hne : GetActionCostacrossAddLevels st SX SY θ a ≠ INFINITECOST)
    (hbase : a.cost ≤ st.cfg.baseGetActionCost SX SY θ a) :
    GetActionCost st SX SY θ a =
      max (st.cfg.baseGetActionCost SX SY θ a)
        (a.cost * (mlevMaxObservedCost st SX SY a + 1)) ∧
    (st.cfg.baseGetActionCost SX SY θ a = a.cost →
      mlevMaxObservedCost st SX SY a = 0 → GetActionCost st SX SY θ a = a.cost) ∧
    (st.cfg.baseGetActionCost SX SY θ a = a.cost →
      mlevMaxObservedCost st SX SY a = k → k < st.cfg.obsthresh →
      GetActionCost st SX SY θ a = a.cost * (k + 1)) := by
  have h1 : IsValidCell st SX SY = true := by
    by_contra h
    exact hne (addLevels_invalid_source st SX SY θ a (Bool.eq_false_iff.mpr h))
  have h2 : IsValidCell st (SX + a.dX) (SY + a.dY) = true := by
    by_contra h
    exact hne (addLevels_invalid_dest st SX SY θ a (Bool.eq_false_iff.mpr h))
  by_cases h0 : st.numofadditionalzlevs = 0
  · have hm0 : mlevMaxObservedCost st SX SY a = 0 := by
      simp [mlevMaxObservedCost, h0]
    have hc : GetActionCostacrossAddLevels st SX SY θ a = 0 :=
      addLevels_zero st SX SY θ a h0 h1 h2
    refine ⟨?_, ?_, ?_⟩
    · unfold GetActionCost
      rw [hc, hm0, Nat.max_zero]
      simpa using (Nat.max_eq_left hbase).symm
    · intro hB _
      unfold GetActionCost
      rw [hc, Nat.max_zero, hB]
    · intro hB hm _
      have hk0 : k = 0 := by rw [hm0] at hm; omega
      subst hk0
      unfold GetActionCost
      rw [hc, Nat.max_zero, hB]
      simp
  · by_cases hd : destAboveInscribed st (SX + a.dX) (SY + a.dY) = true
    · exact absurd (addLevels_inscribed st SX SY θ a h1 h2 hd) hne
    · have hmain := addLevels_main st SX SY θ a h1 h2 h0 (Bool.eq_false_iff.mpr hd)
      by_cases hob : st.cfg.obsthresh ≤ mlevMaxObservedCost st SX SY a
      · rw [if_pos hob] at hmain
        exact absurd hmain hne
      · rw [if_neg hob] at hmain
        refine ⟨?_, ?_, ?_⟩
        · unfold GetActionCost
          rw [hmain]
        · intro hB hm
          unfold GetActionCost
          rw [hmain, hm, hB]
          simp
        · intro hB hm _
          unfold GetActionCost
          rw [hmain, hm, hB]
          have hle : a.cost * 1 ≤ a.cost * (k + 1) :=
            Nat.mul_le_mul_left a.cost (by omega)
          simpa using Nat.max_eq_right (by simpa using hle)

/-- Witness for C1 at a concrete input: from (2, 2) with `exAction`
(base cost 5) over `scaleSt`, whose only obstacle is a cost-3 cell on the
swept center line, the action cost is 5·(3+1). -/
theorem GetActionCost_scaling_law_witness :
    GetActionCostacrossAddLevels scaleSt 2 2 0 exAction ≠ INFINITECOST ∧
    exAction.cost ≤ scaleSt.cfg.baseGetActionCost 2 2 0 exAction ∧
    GetActionCost scaleSt 2 2 0 exAction =
      max (scaleSt.cfg.baseGetActionCost 2 2 0 exAction)
        (exAction.cost * (mlevMaxObservedCost scaleSt 2 2 exAction + 1)) ∧
    GetActionCost scaleSt 2 2 0 exAction = exAction.cost * (3 + 1) :=
  ⟨by decide, by decide,
   (GetActionCost_scaling_law scaleSt 2 2 0 exAction 3 (by decide) (by decide)).1,
   (GetActionCost_scaling_law scaleSt 2 2 0 exAction 3 (by decide) (by decide)).2.2
     (by decide) (by decide) (by decide)⟩

theorem narrowLoop_le (st : MLevState) (SX SY : Int) (a : EnvNAVXYTHETALATAction_t)
    (ml : Nat → Nat) :
    ∀ (levs : List Nat) (m : Nat), m ≤ narrowLoop st SX SY a ml levs m := by
  intro levs
  induction levs with
  | nil => intro m; exact Nat.le_refl m
  | cons l rest ih =>
    intro m
    unfold narrowLoop
    split
    · exact Nat.le_refl m
    · next hguard =>
      refine Nat.le_trans ?_ (ih _)
      split
      · split
        · omega
        · exact Nat.le_refl m
      · exact Nat.le_refl m

theorem narrowLoop_blocked (st : MLevState) (SX SY : Int)
    (a : EnvNAVXYTHETALATAction_t) (ml : Nat → Nat) (lev : Nat)
    (hfoot : 1 < footprintSize st lev)
    (hml : st.cfg.cost_possibly_circumscribed_thresh ≤ ml lev)
    (hinv : (intersectingCells st a.starttheta a.aind lev).any
      (fun c => ! IsValidCellLev st (c.1 + SX) (c.2 + SY) lev) = true) :
    ∀ (levs : List Nat) (m : Nat), lev ∈ levs →
      st.cfg.obsthresh ≤ narrowLoop st SX SY a ml levs m := by
  intro levs
  induction levs with
  | nil => intro m hmem; exact absurd hmem (List.not_mem_nil lev)
  | cons l rest ih =>
    intro m hmem
    unfold narrowLoop
    split
    · next hg => exact hg
    · rcases List.mem_cons.mp hmem with heq | hmem2
      · subst heq
        rw [if_pos ⟨hfoot, hml⟩, if_pos hinv]
        exact narrowLoop_le st SX SY a ml rest st.cfg.obsthresh
      · exact ih _ hmem2

/-- C2: whenever the narrow-phase conditions hold for some level — its
footprint polygon has more than one vertex and its broad-phase running
maximum is at/above `cost_possibly_circumscribed_thresh` — and some
precomputed swept cell for (sourceHeading, action, level), translated by
the source cell, is invalid at that level, `GetActionCost` returns the
infinite cost, regardless of the numeric cost computed so far. -/
theorem GetActionCost_hard_block (st : MLevState) (SX SY : Int) (θ : Nat)
    (a : EnvNAVXYTHETALATAction_t) (lev : Nat)
    (hbase : st.cfg.baseGetActionCost SX SY θ a ≤ INFINITECOST)
    (hθ : a.starttheta = θ)
    (hlev : lev < st.numofadditionalzlevs)
    (hfoot : 1 < footprintSize st lev)
    (hml : st.cfg.cost_possibly_circumscribed_thresh ≤
      (broadPhase st SX SY a).maxcellcostateachlevel lev)
    (hinv : ∃ c, c ∈ intersectingCells st θ a.aind lev ∧
      IsValidCellLev st (c.1 + SX) (c.2 + SY) lev = false) :
    GetActionCost st SX SY θ a = INFINITECOST := by
  subst hθ
  have haddINF : GetActionCostacrossAddLevels st SX SY a.starttheta a = INFINITECOST := by
    by_cases h1 : IsValidCell st SX SY = true
    · by_cases h2 : IsValidCell st (SX + a.dX) (SY + a.dY) = true
      · have h0 : st.numofadditionalzlevs ≠ 0 := by omega
        by_cases hd : destAboveInscribed st (SX + a.dX) (SY + a.dY) = true
        · exact addLevels_inscribed st SX SY a.starttheta a h1 h2 hd
        · rw [addLevels_main st SX SY a.starttheta a h1 h2 h0 (Bool.eq_false_iff.mpr hd)]
          have hany : (intersectingCells st a.starttheta a.aind lev).any
              (fun c => ! IsValidCellLev st (c.1 + SX) (c.2 + SY) lev) = true := by
            rw [List.any_eq_true]
            rcases hinv with ⟨c, hc, hcf⟩
            exact ⟨c, hc, by simp [hcf]⟩
          have hobs : st.cfg.obsthresh ≤ mlevMaxObservedCost st SX SY a := by
            unfold mlevMaxObservedCost
            rw [if_neg h0]
            exact narrowLoop_blocked st SX SY a
              (broadPhase st SX SY a).maxcellcostateachlevel lev hfoot hml hany
              (List.range st.numofadditionalzlevs) (broadPhase st SX SY a).maxcellcost
              (List.mem_range.mpr hlev)
          rw [if_pos hobs]
      · exact addLevels_invalid_dest st SX SY a.starttheta a (Bool.eq_false_iff.mpr h2)
    · exact addLevels_invalid_source st SX SY a.starttheta a (Bool.eq_false_iff.mpr h1)
  unfold GetActionCost
  rw [haddINF]
  exact Nat.max_eq_right hbase

/-- Witness for C2 at a concrete input: in `blockSt` the broad phase sees
at most cost 150 (below `obsthresh` 250) but the precomputed swept cell
(3, 3), translated from source (2, 2) to (5, 5), has cost 255, so the
action is blocked. -/
theorem GetActionCost_hard_block_witness :
    blockSt.cfg.baseGetActionCost 2 2 0 exAction ≤ INFINITECOST ∧
    exAction.starttheta = 0 ∧
    0 < blockSt.numofadditionalzlevs ∧
    1 < footprintSize blockSt 0 ∧
    blockSt.cfg.cost_possibly_circumscribed_thresh ≤
      (broadPhase blockSt 2 2 exAction).maxcellcostateachlevel 0 ∧
    (broadPhase blockSt 2 2 exAction).maxcellcost < blockSt.cfg.obsthresh ∧
    IsValidCellLev blockSt (3 + 2) (3 + 2) 0 = false ∧
    GetActionCost blockSt 2 2 0 exAction = INFINITECOST :=
  ⟨by decide, rfl, by decide, by decide, by decide, by decide, by decide,
   GetActionCost_hard_block blockSt 2 2 0 exAction 0 (by decide) rfl (by decide)
     (by decide) (by decide) ⟨(3, 3), by decide, by decide⟩⟩

theorem broadLoop_broke_blocked (st : MLevState) (SX SY : Int) :
    ∀ (cells : List (Int × Int)) (m : Nat) (ml : Nat → Nat),
      (broadLoop st SX SY cells m ml).brokeEarly = true →
      (broadLoop st SX SY cells m ml).maxcellcost = st.cfg.obsthresh := by
  intro cells
  induction cells with
  | nil => intro m ml h; exact absurd h (by simp [broadLoop])
  | cons c rest ih =>
    intro m ml
    unfold broadLoop
    by_cases hoob : outOfMap st (c.1 + SX) (c.2 + SY)
    · rw [if_pos hoob]
      intro _
      rfl
    · rw [if_neg hoob]
      by_cases hins : st.cfg.cost_inscribed_thresh ≤
          (cellLevelCostsFold st (c.1 + SX) (c.2 + SY) (m, ml)).1
      · rw [if_pos hins]
        intro _
        rfl
      · rw [if_neg hins]
        exact ih _ _

theorem broadLoop_not_broke (st : MLevState) (SX SY : Int) :
    ∀ (cells : List (Int × Int)) (m : Nat) (ml : Nat → Nat),
      (broadLoop st SX SY cells m ml).brokeEarly = false →
      (broadLoop st SX SY cells m ml).maxcellcost =
        cells.foldl (fun mm c => max mm (cellMax st (c.1 + SX) (c.2 + SY))) m := by
  intro cells
  induction cells with
  | nil => intro m ml _; rfl
  | cons c rest ih =>
    intro m ml
    unfold broadLoop
    by_cases hoob : outOfMap st (c.1 + SX) (c.2 + SY)
    · rw [if_pos hoob]
      intro h
      exact absurd h (by simp)
    · rw [if_neg hoob]
      by_cases hins : st.cfg.cost_inscribed_thresh ≤
          (cellLevelCostsFold st (c.1 + SX) (c.2 + SY) (m, ml)).1
      · rw [if_pos hins]
        intro h
        exact absurd h (by simp)
      · rw [if_neg hins]
        intro h
        rw [ih _ _ h, cellLevelCostsFold_fst st (c.1 + SX) (c.2 + SY) m ml,
          List.foldl_cons]

theorem broadLoop_broke_iff (st : MLevState) (SX SY : Int) :
    ∀ (cells : List (Int × Int)) (m : Nat) (ml : Nat → Nat),
      ((broadLoop st SX SY cells m ml).brokeEarly = true ↔
        ∃ i, i < cells.length ∧
          (outOfMap st ((cells.getD i (0, 0)).1 + SX) ((cells.getD i (0, 0)).2 + SY) ∨
           st.cfg.cost_inscribed_thresh ≤
             (cells.take (i + 1)).foldl
               (fun mm c => max mm (cellMax st (c.1 + SX) (c.2 + SY))) m)) := by
  intro cells
  induction cells with
  | nil =>
    intro m ml
    constructor
    · intro h
      exact absurd h (by simp [broadLoop])
    · rintro ⟨i, hi, _⟩
      exact absurd hi (by simp)
  | cons c rest ih =>
    intro m ml
    unfold broadLoop
    by_cases hoob : outOfMap st (c.1 + SX) (c.2 + SY)
    · rw [if_pos hoob]
      constructor
      · intro _
        exact ⟨0, by simp, Or.inl (by simpa using hoob)⟩
      · intro _
        rfl
    · rw [if_neg hoob]
      by_cases hins : st.cfg.cost_inscribed_thresh ≤
          (cellLevelCostsFold st (c.1 + SX) (c.2 + SY) (m, ml)).1
      · rw [if_pos hins]
        rw [cellLevelCostsFold_fst st (c.1 + SX) (c.2 + SY) m ml] at hins
        constructor
        · intro _
          exact ⟨0, by simp, Or.inr (by simpa using hins)⟩
        · intro _
          rfl
      · rw [if_neg hins]
        rw [ih (cellLevelCostsFold st (c.1 + SX) (c.2 + SY) (m, ml)).1
            (cellLevelCostsFold st (c.1 + SX) (c.2 + SY) (m, ml)).2]
        rw [cellLevelCostsFold_fst st (c.1 + SX) (c.2 + SY) m ml] at hins ⊢
        constructor
        · rintro ⟨i, hi, hcond⟩
          refine ⟨i + 1, by simpa using hi, ?_⟩
          rcases hcond with hc | hc
          · exact Or.inl (by simpa using hc)
          · refine Or.inr ?_
            rw [List.take_succ_cons, List.foldl_cons]
            exact hc
        · rintro ⟨i, hi, hcond⟩
          cases i with
          | zero =>
            rcases hcond with hc | hc
            · exact absurd (by simpa using hc) hoob
            · exact absurd (by simpa using hc) hins
          | succ j =>
            refine ⟨j, by simpa using hi, ?_⟩
            rcases hcond with hc | hc
            · exact Or.inl (by simpa using hc)
            · refine Or.inr ?_
              rw [List.take_succ_cons, List.foldl_cons] at hc
              exact hc

/-- C3 (amended): the broad phase walks the action's translated
intermediate center cells, tracking per-level and overall running maxima,
and stops early with the transition treated as blocked (`maxcellcost`
clamped to `obsthresh`) exactly when a translated center cell leaves the
grid or the overall running maximum reaches `cost_inscribed_thresh` —
not `obsthresh`; when it does not stop early, `maxcellcost` is exactly
the overall maximum cost observed along the walk. -/
theorem broadPhase_early_stop (st : MLevState) (SX SY : Int)
    (a : EnvNAVXYTHETALATAction_t) :
    ((broadPhase st SX SY a).brokeEarly = true ↔
      ∃ i, i < a.interm3DcellsV.length ∧
        (outOfMap st ((a.interm3DcellsV.getD i (0, 0)).1 + SX)
            ((a.interm3DcellsV.getD i (0, 0)).2 + SY) ∨
         st.cfg.cost_inscribed_thresh ≤
           observedRunMax st SX SY (a.interm3DcellsV.take (i + 1)))) ∧
    ((broadPhase st SX SY a).brokeEarly = true →
      (broadPhase st SX SY a).maxcellcost = st.cfg.obsthresh) ∧
    ((broadPhase st SX SY a).brokeEarly = false →
      (broadPhase st SX SY a).maxcellcost =
        observedRunMax st SX SY a.interm3DcellsV) :=
  ⟨broadLoop_broke_iff st SX SY a.interm3DcellsV 0 (fun _ => 0),
   broadLoop_broke_blocked st SX SY a.interm3DcellsV 0 (fun _ => 0),
   broadLoop_not_broke st SX SY a.interm3DcellsV 0 (fun _ => 0)⟩

/-- C3 counterexample: in `c3St` (`cost_inscribed_thresh` 5 strictly
below `obsthresh` 10) the broad phase from (2, 2) stops early and treats
the transition as blocked on the cost-5 center cell, although the
running maximum over the walked cells never reaches `obsthresh`: the
stop threshold is `cost_inscribed_thresh`, not `obsthresh`. -/
theorem broadPhase_early_stop_counterexample :
    (broadPhase c3St 2 2 exAction).brokeEarly = true ∧
    (broadPhase c3St 2 2 exAction).maxcellcost = c3St.cfg.obsthresh ∧
    observedRunMax c3St 2 2 (exAction.interm3DcellsV.take 1) < c3St.cfg.obsthresh ∧
    observedRunMax c3St 2 2 (exAction.interm3DcellsV.take 2) < c3St.cfg.obsthresh ∧
    exAction.interm3DcellsV.length = 2 := by decide

/-- Witness for C3 at a concrete input: the broad phase of `c3St` from
(2, 2) stops early, and its `maxcellcost` is clamped to `obsthresh`. -/
theorem broadPhase_early_stop_witness :
    (broadPhase c3St 2 2 exAction).brokeEarly = true ∧
    (broadPhase c3St 2 2 exAction).maxcellcost = c3St.cfg.obsthresh :=
  ⟨by decide, (broadPhase_early_stop c3St 2 2 exAction).2.1 (by decide)⟩

end NavMLev
